import Mathlib

/-!
Shallow embedding of the core of the readyset (noria) dataflow engine,
verified against the repository's natural-language specification.

Each definition is translated from the corresponding Rust source file
(paths given in the doc comments).  Machine integers are modelled as
`Nat`/`Int` with explicit wrap-around where the source truncates;
fallible Rust code is modelled with `Except`; I/O outcomes that are not
decided by the embedded code enter as explicit oracle arguments.
-/

namespace Noria

/-! ### Values, rows and records (dataflow core data model) -/

/-- A row of values, `Vec<DataType>` in the source.  The value type is kept
abstract (`V`), since the claims under study are independent of the
concrete `DataType` representation. -/
abbrev Row (V : Type) := List V

/-- One dataflow record (`Record` in the source): a positive or negative
delta row, or a delete request carrying a key. -/
inductive Rec (V : Type) where
  | positive (r : Row V)
  | negative (r : Row V)
  | deleteRequest (k : Row V)
deriving DecidableEq, Repr

/-! ### The Trigger (identity) operator — src/dataflow/src/ops/trigger.rs -/

/-- An `IndexPair` carries a global node index and, after commit, a
domain-local index (src/noria/src/internal/addressing.rs and the
dataflow prelude). -/
structure IndexPair where
  global : Nat
  localAddr : Option Nat
deriving DecidableEq, Repr

/-- `IndexPair::as_global`. -/
def IndexPair.asGlobal (ip : IndexPair) : Nat := ip.global

/-- A miss reported by an operator (contents irrelevant to the Trigger
operator, which never produces any). -/
structure Miss (V : Type) where
  node : Nat
  key : Row V
deriving DecidableEq, Repr

/-- The result of `Ingredient::on_input`. -/
structure ProcessingResult (V : Type) where
  results : List (Rec V)
  misses : List (Miss V)
deriving DecidableEq, Repr

/-- The `Trigger` operator (doc comment in the source: "Applies the identity
operation to the view").  It records only its single source. -/
structure Trigger where
  src : IndexPair
deriving DecidableEq, Repr

/-- `Trigger::ancestors`: the single parent. -/
def Trigger.ancestors (t : Trigger) : List Nat := [t.src.asGlobal]

/-- `Trigger::on_input`: returns the input delta unchanged with no misses.
The ignored tracer/replay/nodes/states arguments of the source signature
do not influence the result and are omitted. -/
def Trigger.on_input (_t : Trigger) (_from : Nat) (rs : List (Rec V)) :
    ProcessingResult V :=
  { results := rs, misses := [] }

/-- `Trigger::resolve`: column `col` comes from column `col` of the source. -/
def Trigger.resolve (t : Trigger) (col : Nat) : Option (List (Nat × Nat)) :=
  some [(t.src.asGlobal, col)]

/-- `Trigger::parent_columns`. -/
def Trigger.parent_columns (t : Trigger) (column : Nat) :
    List (Nat × Option Nat) :=
  [(t.src.asGlobal, some column)]

/-! ### The RPC channel — src/channel/src/rpc.rs -/

/-- `tcp::SendError` as surfaced by `RpcClient::send`: the channel was
already poisoned, or the underlying write/serialization failed (the two
`From` conversions used by the `?` operator in `send_internal`). -/
inductive SendError where
  | Poisoned
  | IoError
  | SerializationError
deriving DecidableEq, Repr

/-- The mutable state of an `RpcClient` that the embedded code branches
on: its `poisoned` flag. -/
structure RpcClientState where
  poisoned : Bool
deriving DecidableEq, Repr

/-- `RpcClient::send`.  The outcome of the underlying
`send_internal` I/O exchange is an oracle argument `io`.  Returns the
caller-visible result, the successor state, and whether any I/O was
attempted at all (`send` returns before `send_internal` when poisoned). -/
def rpcSend (st : RpcClientState) (io : Except SendError R) :
    Except SendError R × RpcClientState × Bool :=
  if st.poisoned then (.error .Poisoned, st, false)
  else
    match io with
    | .ok r => (.ok r, st, true)
    | .error e => (.error e, { poisoned := true }, true)

/-- A sequence of `RpcClient::send` calls threaded through the client
state; each entry of the result is (caller-visible result, I/O attempted). -/
def runSends (st : RpcClientState) :
    List (Except SendError R) → List (Except SendError R × Bool)
  | [] => []
  | io :: rest =>
    let s := rpcSend st io
    (s.1, s.2.2) :: runSends s.2.1 rest

/-- `channel::ReceiveError` as produced by `DeserializeReceiver::try_recv`. -/
inductive ReceiveError (E : Type) where
  | WouldBlock
  | IoError
  | DeserializationError (e : E)
deriving DecidableEq, Repr

/-- `tcp::TryRecvError` as surfaced by `RpcServiceEndpoint::try_recv`. -/
inductive TryRecvError (E : Type) where
  | Empty
  | Disconnected
  | DeserializationError (e : E)
deriving DecidableEq, Repr

/-- The mutable state of an `RpcServiceEndpoint` that the embedded code
branches on: its `poisoned` flag. -/
structure EndpointState where
  poisoned : Bool
deriving DecidableEq, Repr

/-- `RpcServiceEndpoint::try_recv`.  The outcome of
`deserialize_receiver.try_recv(&mut self.stream)` is the oracle `recv`. -/
def tryRecv (st : EndpointState) (recv : Except (ReceiveError E) Q) :
    Except (TryRecvError E) Q × EndpointState :=
  if st.poisoned then (.error .Disconnected, st)
  else
    match recv with
    | .ok msg => (.ok msg, st)
    | .error .WouldBlock => (.error .Empty, st)
    | .error .IoError => (.error .Disconnected, { poisoned := true })
    | .error (.DeserializationError e) =>
        (.error (.DeserializationError e), { poisoned := true })

/-- A sequence of `try_recv` calls threaded through the endpoint state. -/
def runRecvs (st : EndpointState) :
    List (Except (ReceiveError E) Q) → List (Except (TryRecvError E) Q)
  | [] => []
  | recv :: rest =>
    let s := tryRecv st recv
    s.1 :: runRecvs s.2 rest

/-! ### The wire frame written by `RpcClient::send_internal`
(src/channel/src/rpc.rs lines 50-56).  Serialization itself is the
external `bincode` library, so the byte string `serialize q` enters as a
parameter; `send_internal` computes `serialized_size(query) as u32` (a
truncating cast) and writes it in network (big-endian) byte order,
followed by the serialized payload, with `bincode::Infinite` as the size
limit (no ceiling is applied to either number). -/

/-- The Rust `as u32` cast. -/
def castU32 (n : Nat) : Nat := n % 2 ^ 32

/-- `WriteBytesExt::write_u32::<NetworkEndian>`: the four big-endian bytes
of a value already reduced below `2^32`. -/
def u32be (n : Nat) : List Nat :=
  [n / 2 ^ 24 % 256, n / 2 ^ 16 % 256, n / 2 ^ 8 % 256, n % 256]

/-- The value denoted by four big-endian bytes (how a receiver reads the
length prefix back). -/
def decodeU32be (bs : List Nat) : Nat :=
  match bs with
  | [b0, b1, b2, b3] => ((b0 * 256 + b1) * 256 + b2) * 256 + b3
  | _ => 0

/-- The byte string `send_internal` writes to the stream for query `q`:
the truncated length prefix followed by the serialized payload. -/
def sendFrame (serialize : Q → List Nat) (q : Q) : List Nat :=
  u32be (castU32 (serialize q).length) ++ serialize q

/-! ### The reader lookup path — src/src/controller/getter.rs -/

/-- State of one reader materialization as visible to `Getter::lookup`.
Modelled from the spec: `dataflow::backlog::ReadHandle::find_and` is not
under src/ (only its caller `Getter` is); per the spec, a reader that is
not yet ready errors, a present key returns its rows, and on a partial
miss "When `block` is false, a miss returns an empty result and triggers
a replay asynchronously (so the next read may hit)"; when `block` is
true the caller is parked and re-reads after the replay completes. -/
structure ReaderState (K V : Type) where
  ready : Bool
  hasPartialIndex : Bool
  rows : K → Option (List (Row V))
  ts : Int
  afterReplay : K → List (Row V)

/-- Modelled from the spec: `backlog::ReadHandle::find_and` (missing from
src/).  Returns the `Result<(Option<rows>, ts), ()>` seen by
`Getter::lookup_map`, paired with whether a replay was triggered. -/
def find_and (st : ReaderState K V) (key : K) (block : Bool) :
    Except Unit (Option (List (Row V)) × Int) × Bool :=
  if st.ready = false then (.error (), false)
  else
    match st.rows key with
    | some rs => (.ok (some rs, st.ts), false)
    | none =>
      if st.hasPartialIndex then
        if block then (.ok (some (st.afterReplay key), st.ts), true)
        else (.ok (none, st.ts), true)
      else (.ok (none, st.ts), false)

/-- `Getter::lookup` (src/src/controller/getter.rs lines 296-306):
`lookup_map` keeps the first component of `find_and`, and the miss case
`Ok(None)` is turned into an empty row set by `unwrap_or_else(Vec::new)`.
`deep_clone` of each value is the identity on the abstract value type. -/
def Getter.lookup (st : ReaderState K V) (key : K) (block : Bool) :
    Except Unit (List (Row V)) × Bool :=
  let s := find_and st key block
  (s.1.map fun r => r.1.getD [], s.2)

/-! ### Shard routing — src/src/controller/getter.rs (multi_lookup) and
src/src/flow/domain/handle.rs (base_send) -/

/-- Modelled from the spec: `dataflow::shard_by` / `::shard_by` (the
hash-based routing function both call sites use) is not under src/; the
spec says "Sharded domains partition by `hash(value[col]) mod n`".  The
hash itself stays abstract. -/
def shard_by (hash : V → Nat) (v : V) (n : Nat) : Nat := hash v % n

/-- One iteration of the `for key in keys` loop of
`RemoteGetter::multi_lookup` (lines 117-121): push `key` onto the bucket
chosen by `shard_by`. -/
def pushKey (hash : V → Nat) (n : Nat) (acc : List (List V)) (key : V) :
    List (List V) :=
  acc.set (shard_by hash key n) (acc.getD (shard_by hash key n) [] ++ [key])

/-- The `shard_queries` buckets built by `RemoteGetter::multi_lookup` in
the sharded (`n > 1`) branch: start from `n` empty buckets and route each
key by `shard_by`. -/
def shardQueries (hash : V → Nat) (n : Nat) (keys : List V) :
    List (List V) :=
  keys.foldl (pushKey hash n) (List.replicate n [])

/-- The panic branches of `DomainInputHandle::base_send`, together with
the implicit index-out-of-bounds panics of `p.data()[0]` and `r[key_col]`. -/
inductive BaseSendPanic where
  | unreachableNoKey
  | unimplementedComplexKey
  | unimplementedMixedKeys
  | indexOutOfBounds
deriving DecidableEq, Repr

/-- The key value the first record of the packet is routed by
(`match p.data()[0] { Positive(r) | Negative(r) => &r[key_col],
DeleteRequest(k) => &k[0] }`). -/
def extractKey (key_col : Nat) : Rec V → Option V
  | .positive r => r.get? key_col
  | .negative r => r.get? key_col
  | .deleteRequest k => k.get? 0

/-- The per-record condition of the `p.data().iter().all(..)` check in
`base_send`. -/
def recMatches [DecidableEq V] (key_col : Nat) (v : V) : Rec V → Bool
  | .positive r => r.get? key_col = some v
  | .negative r => r.get? key_col = some v
  | .deleteRequest k => k.length = 1 && k.get? 0 = some v

/-- `DomainInputHandle::base_send` (src/src/flow/domain/handle.rs lines
26-61), reduced to its routing decision: which shard index the whole
packet is sent to, or which panic fires.  `n` is `self.0.len()`. -/
def base_send [DecidableEq V] (hash : V → Nat) (n : Nat) (key : List Nat)
    (data : List (Rec V)) : Except BaseSendPanic Nat :=
  if n = 1 then .ok 0
  else if key.isEmpty then .error .unreachableNoKey
  else if key.length ≠ 1 then .error .unimplementedComplexKey
  else
    let key_col := key.getD 0 0
    match data.head? with
    | none => .error .indexOutOfBounds
    | some r0 =>
      match extractKey key_col r0 with
      | none => .error .indexOutOfBounds
      | some v =>
        if data.all (recMatches key_col v) then .ok (shard_by hash v n)
        else .error .unimplementedMixedKeys

/-! ### The order of steps in `Migration::commit` — src/src/flow/mod.rs
lines 895-1182.

The commit body is a straight-line sequence of calls; we embed it as the
trace of steps it performs, in source order.  Calls whose bodies live in
modules not under src/ (`migrate::sharding::shard`,
`migrate::assignment::assign`, `migrate::routing::add`,
`materializations.commit`, ...) each contribute the step(s) the spec
ascribes to them; the internal order of `materializations.commit`
(install replay paths, prime indices by full replay, mark nodes Ready)
is modelled from the spec sentence "(5) installs replay paths and primes
required indices via full replay, (6) marks nodes *Ready*". -/

/-- One step of `Migration::commit`, in the order the source performs
them.  `assignLocal d ni` is the local-address assignment for node `ni`
of domain `d` (lines 1000-1014); `onCommit d ni` is the
`on_commit` invocation for internal node `ni` of domain `d`
(lines 1016-1044). -/
inductive CommitStep where
  | shard
  | assignDomains
  | routingAdd
  | assignLocal (d ni : Nat)
  | onCommit (d ni : Nat)
  | analyzeGraph
  | performMigration
  | bootDomains
  | inform
  | baseColumnChanges
  | routingConnect
  | installReplayPaths
  | primeIndices
  | markReady
  | addReplayPathsToChecktable
  | finalizeTransactions
deriving DecidableEq, Repr

/-- The two per-domain loops of `Migration::commit` (lines 988-1045):
first every new node of the domain gets a local address, then `on_commit`
runs on every internal new node of the domain. -/
def domainSegment (isInternal : Nat → Bool) (d : Nat) (ns : List Nat) :
    List CommitStep :=
  ns.map (CommitStep.assignLocal d) ++
    (ns.filter isInternal).map (CommitStep.onCommit d)

/-- The trace of `Migration::commit`: sharding (when enabled), domain
assignment, ingress/egress insertion, the per-domain address/on_commit
loops over `domain_new_nodes`, transaction analysis, the checktable
migration, domain boot-up and augmentation, base column changes,
inter-domain connection, the materializations commit (replay paths,
priming, Ready), and the transactional finalization. -/
def commitTrace (shardingEnabled : Bool) (isInternal : Nat → Bool)
    (dn : List (Nat × List Nat)) : List CommitStep :=
  (if shardingEnabled then [CommitStep.shard] else []) ++
    [CommitStep.assignDomains, CommitStep.routingAdd] ++
    dn.flatMap (fun p => domainSegment isInternal p.1 p.2) ++
    [CommitStep.analyzeGraph, CommitStep.performMigration,
     CommitStep.bootDomains, CommitStep.inform,
     CommitStep.baseColumnChanges, CommitStep.routingConnect,
     CommitStep.installReplayPaths, CommitStep.primeIndices,
     CommitStep.markReady, CommitStep.addReplayPathsToChecktable,
     CommitStep.finalizeTransactions]

/-- `a` occurs strictly before `b` in `t`: every occurrence of `a`
precedes every occurrence of `b`. -/
def occursBefore (t : List α) (a b : α) : Prop :=
  ∀ (i j : Nat), t[i]? = some a → t[j]? = some b → i < j

/-! ### Local-address assignment — src/src/flow/mod.rs lines 988-1014.

Per domain, `nnodes` starts at the number of pre-existing entries of
`mainline.remap[domain]` and each new node is inserted with local index
`nnodes`, which is then incremented.  The remap of one domain is an
association list from global node index to local index; a fresh
`HashMap::insert` is an append. -/

/-- An `f64` input value. -/
inductive F64 where
  | nan
  | inf (neg : Bool)
  | finite (q : ℚ)

/-- `f64::is_nan`. -/
def F64.is_nan : F64 → Bool
  | .nan => true
  | _ => false

/-- `f64::is_infinite`. -/
def F64.is_infinite : F64 → Bool
  | .inf _ => true
  | _ => false

/-- The rational value of a finite `F64` (only read after the NaN and
infinity guards have fired). -/
def F64.toRat : F64 → ℚ
  | .finite q => q
  | _ => 0

/-- `f64::round`: round half away from zero. -/
def roundHalfAway (q : ℚ) : ℤ :=
  if 0 ≤ q then ⌊q + 1 / 2⌋ else -⌊-q + 1 / 2⌋

/-- `f64::trunc` (toward zero). -/
def ratTrunc (q : ℚ) : ℤ :=
  if 0 ≤ q then ⌊q⌋ else ⌈q⌉

/-- A saturating Rust `as`-cast from the rounded value to an integer
range (float-to-int `as` casts saturate). -/
def satCast (lo hi r : ℤ) : ℤ := max lo (min hi r)

/-- `coerce_f64_to_int::<I>` for a target type with range `[lo, hi]`
(the `i64::TryInto<I>` at the end is the range check). -/
def coerce_f64_to_int (lo hi : ℤ) (val : ℚ) : Option ℤ :=
  if -(1 / 2) < val ∧ val < 1 / 2 then
    if lo ≤ 0 ∧ 0 ≤ hi then some 0 else none
  else if val ≤ -(2 ^ 63 : ℚ) ∨ (2 ^ 63 : ℚ) ≤ val then
    -- `i64::MIN as f64 - 0.5` and `i64::MAX as f64 + 0.5` both evaluate
    -- to ±2^63 in f64.
    none
  else
    let r := satCast (-(2 ^ 63)) (2 ^ 63 - 1) (roundHalfAway val)
    if lo ≤ r ∧ r ≤ hi then some r else none

/-- `coerce_f64_to_uint::<I>` for a target type with range `[0, hi]`. -/
def coerce_f64_to_uint (hi : ℤ) (val : ℚ) : Option ℤ :=
  if -(1 / 2) < val ∧ val < 1 / 2 then some 0
  else if val ≤ -(1 / 2) ∨ (2 ^ 64 : ℚ) ≤ val then
    -- `u64::MAX as f64 + 0.5` evaluates to 2^64 in f64.
    none
  else
    let r := satCast 0 (2 ^ 64 - 1) (roundHalfAway val)
    if 0 ≤ r ∧ r ≤ hi then some r else none

/-- `nom_sql::SqlType` (the target-type tag of the coercion; the external
`nom_sql` crate's enum, reproduced with the parameter shapes the match
arms of `coerce_f64` depend on). -/
inductive SqlType where
  | Bool
  | Float
  | Real
  | Double
  | Numeric (spec : Option (Nat × Option Nat))
  | Decimal (m d : Nat)
  | TinyInt (w : Option Nat)
  | SmallInt (w : Option Nat)
  | Int (w : Option Nat)
  | Serial
  | BigInt (w : Option Nat)
  | BigSerial
  | UnsignedTinyInt (w : Option Nat)
  | UnsignedSmallInt (w : Option Nat)
  | UnsignedInt (w : Option Nat)
  | UnsignedBigInt (w : Option Nat)
  | TinyText
  | MediumText
  | Text
  | LongText
  | Char (l : Option Nat)
  | VarChar (l : Option Nat)
  | TinyBlob
  | MediumBlob
  | Blob
  | LongBlob
  | ByteArray
  | Binary (l : Option Nat)
  | VarBinary (l : Nat)
  | Json
  | Jsonb
  | Time
  | Date
  | DateTime (p : Option Nat)
  | Timestamp
  | TimestampTz
  | Enum (alts : List String)
  | MacAddr
  | Inet
  | Uuid
  | Bit (l : Option Nat)
  | VarBit (l : Option Nat)
  | Array (t : SqlType)
deriving DecidableEq, Repr

/-- The name used for `to_ty.to_string()` inside the conversion error
(the Display form of `nom_sql::SqlType`, abbreviated to the constructor
head; only carried inside error payloads). -/
def SqlType.displayName : SqlType → String
  | .Bool => "BOOL" | .Float => "FLOAT" | .Real => "REAL"
  | .Double => "DOUBLE" | .Numeric _ => "NUMERIC" | .Decimal _ _ => "DECIMAL"
  | .TinyInt _ => "TINYINT" | .SmallInt _ => "SMALLINT" | .Int _ => "INT"
  | .Serial => "SERIAL" | .BigInt _ => "BIGINT" | .BigSerial => "BIGSERIAL"
  | .UnsignedTinyInt _ => "TINYINT UNSIGNED"
  | .UnsignedSmallInt _ => "SMALLINT UNSIGNED"
  | .UnsignedInt _ => "INT UNSIGNED"
  | .UnsignedBigInt _ => "BIGINT UNSIGNED"
  | .TinyText => "TINYTEXT" | .MediumText => "MEDIUMTEXT" | .Text => "TEXT"
  | .LongText => "LONGTEXT" | .Char _ => "CHAR" | .VarChar _ => "VARCHAR"
  | .TinyBlob => "TINYBLOB" | .MediumBlob => "MEDIUMBLOB" | .Blob => "BLOB"
  | .LongBlob => "LONGBLOB" | .ByteArray => "BYTEA" | .Binary _ => "BINARY"
  | .VarBinary _ => "VARBINARY" | .Json => "JSON" | .Jsonb => "JSONB"
  | .Time => "TIME" | .Date => "DATE" | .DateTime _ => "DATETIME"
  | .Timestamp => "TIMESTAMP" | .TimestampTz => "TIMESTAMPTZ"
  | .Enum _ => "ENUM" | .MacAddr => "MACADDR" | .Inet => "INET"
  | .Uuid => "UUID" | .Bit _ => "BIT" | .VarBit _ => "VARBIT"
  | .Array _ => "ARRAY"

/-- `ReadySetError::DfValueConversionError` with the fields `coerce_f64`
fills in. -/
structure DfValueConversionError where
  src_type : String
  target_type : String
  details : String
deriving DecidableEq, Repr

/-- `DfValue` results as produced by the arms of `coerce_f64` (the
`DfValue` enum itself is not under src/; constructors are named after
the conversions the arms apply). -/
inductive DfValue where
  | fromBool (b : Bool)
  | Float (v : ℚ)
  | Double (v : ℚ)
  | fromDecimal (v : ℚ)
  | fromInt (v : ℤ)
  | fromUInt (v : ℤ)
  | fromText (s : String)
  | ByteArray (bs : List Nat)
  | fromTime (pos : Bool) (hh mm ss : Nat) (us : ℤ)
  | other
deriving DecidableEq, Repr

/-- `(val as f32).is_infinite()`: a finite double becomes an infinite
f32 exactly when its magnitude reaches the rounding threshold
`2^128 - 2^103` above the largest finite f32. -/
def f32CastInfinite (q : ℚ) : Bool :=
  decide ((2 ^ 128 - 2 ^ 103 : ℚ) ≤ q ∨ q ≤ -(2 ^ 128 - 2 ^ 103 : ℚ))

/-- `CHAR(l)` handling: truncate `to` length `l`, then pad with spaces
up to `l`. -/
def charPad (l : Nat) (s : String) : String :=
  let t := (s.toList.take l).asString
  t ++ (List.replicate (l - t.length) ' ').asString

/-- `VARCHAR(l)` / `VARBINARY(l)` handling: truncate to length `l`. -/
def varTrunc (l : Nat) (s : String) : String :=
  (s.toList.take l).asString

/-- `coerce_f64` (src/readyset-data/src/float.rs lines 40-171).

External collaborators enter as parameters: `fmtF64` is
`f64::to_string`, `from_f64_retain` is `rust_decimal`'s
`Decimal::from_f64_retain`, and `coerceInteger` is
`crate::integer::coerce_integer` (readyset-data/src/integer.rs, not
under src/).  `from_ty` is only forwarded to `coerceInteger`. -/
def coerce_f64 (fmtF64 : ℚ → String) (from_f64_retain : ℚ → Option ℚ)
    (coerceInteger : ℤ → SqlType → Except DfValueConversionError DfValue)
    (val : F64) (to_ty : SqlType) :
    Except DfValueConversionError DfValue :=
  let err : String → DfValueConversionError := fun deets =>
    { src_type := "Double", target_type := to_ty.displayName,
      details := deets }
  let bounds_err := err "out of bounds"
  if val.is_infinite then .error (err "±inf not allowed")
  else if val.is_nan then .error (err "Nan not allowed")
  else
    let q := val.toRat
    match to_ty with
    | .Bool => .ok (.fromBool (q ≠ 0))
    | .Float | .Real =>
      if f32CastInfinite q then .error bounds_err
      else .ok (.Float q)
    | .Double => .ok (.Double q)
    | .Numeric _ | .Decimal _ _ =>
      match from_f64_retain q with
      | some d => .ok (.fromDecimal d)
      | none => .error bounds_err
    | .TinyInt _ =>
      match coerce_f64_to_int (-(2 ^ 7)) (2 ^ 7 - 1) q with
      | some i => .ok (.fromInt i)
      | none => .error bounds_err
    | .SmallInt _ =>
      match coerce_f64_to_int (-(2 ^ 15)) (2 ^ 15 - 1) q with
      | some i => .ok (.fromInt i)
      | none => .error bounds_err
    | .Int _ | .Serial =>
      match coerce_f64_to_int (-(2 ^ 31)) (2 ^ 31 - 1) q with
      | some i => .ok (.fromInt i)
      | none => .error bounds_err
    | .BigInt _ | .BigSerial =>
      match coerce_f64_to_int (-(2 ^ 63)) (2 ^ 63 - 1) q with
      | some i => .ok (.fromInt i)
      | none => .error bounds_err
    | .UnsignedTinyInt _ =>
      match coerce_f64_to_uint (2 ^ 8 - 1) q with
      | some i => .ok (.fromUInt i)
      | none => .error bounds_err
    | .UnsignedSmallInt _ =>
      match coerce_f64_to_uint (2 ^ 16 - 1) q with
      | some i => .ok (.fromUInt i)
      | none => .error bounds_err
    | .UnsignedInt _ =>
      match coerce_f64_to_uint (2 ^ 32 - 1) q with
      | some i => .ok (.fromUInt i)
      | none => .error bounds_err
    | .UnsignedBigInt _ =>
      match coerce_f64_to_uint (2 ^ 64 - 1) q with
      | some i => .ok (.fromUInt i)
      | none => .error bounds_err
    | .TinyText | .MediumText | .Text | .LongText
    | .Char none | .VarChar none => .ok (.fromText (fmtF64 q))
    | .VarChar (some l) => .ok (.fromText (varTrunc l (fmtF64 q)))
    | .Char (some l) => .ok (.fromText (charPad l (fmtF64 q)))
    | .TinyBlob | .MediumBlob | .Blob | .LongBlob | .ByteArray
    | .Binary none =>
      .ok (.ByteArray ((fmtF64 q).toList.map Char.toNat))
    | .VarBinary l =>
      .ok (.ByteArray ((varTrunc l (fmtF64 q)).toList.map Char.toNat))
    | .Binary (some l) =>
      .ok (.ByteArray ((charPad l (fmtF64 q)).toList.map Char.toNat))
    | .Json | .Jsonb => .ok (.fromText (fmtF64 q))
    | .Time =>
      -- hhmmss interpretation: ms from the fractional part, fields by
      -- decimal splitting; `as u64` saturates negatives to 0.
      let ms := roundHalfAway ((q - ratTrunc q) * 1000000)
      let whole := (satCast 0 (2 ^ 64 - 1) (ratTrunc q)).toNat
      let hh := whole / 10000
      let mm := whole / 100 % 100
      let ss := whole % 100
      .ok (.fromTime true hh mm ss ms)
    | .Date | .DateTime _ | .Timestamp | .TimestampTz =>
      match coerce_f64_to_int (-(2 ^ 63)) (2 ^ 63 - 1) q with
      | some i => coerceInteger i to_ty
      | none => .error bounds_err
    | .Enum _ | .MacAddr | .Inet | .Uuid | .Bit _ | .VarBit _
    | .Array _ => .error (err "not allowed")

/-! ## Theorems -/

/-- C2: the identity (Trigger) operator forwards every input delta
unchanged with no misses, and `resolve(c)` is the single pair
`(parent, c)` where `parent` is the operator's sole ancestor. -/
theorem trigger_is_identity (t : Trigger) (frm : Nat) (rs : List (Rec V))
    (c : Nat) :
    (t.on_input frm rs).results = rs ∧ (t.on_input frm rs).misses = [] ∧
      ∃ p, t.ancestors = [p] ∧ t.resolve c = some [(p, c)] :=
  ⟨rfl, rfl, t.src.asGlobal, rfl, rfl⟩

/-- C1: a reader lookup with `block = false` whose key is a partial miss
returns `Ok` of an empty row set (not an error) and triggers a replay. -/
theorem lookup_nonblocking_miss (st : ReaderState K V) (key : K)
    (hready : st.ready = true) (hp : st.hasPartialIndex = true)
    (hmiss : st.rows key = none) :
    Getter.lookup st key false = (.ok [], true) := by
  simp [Getter.lookup, find_and, hready, hp, hmiss, Except.map]

/-- C1 witness: a concrete not-yet-filled key on a ready, partially
materialized reader. -/
theorem lookup_nonblocking_miss_witness :
    Getter.lookup
      ({ ready := true, hasPartialIndex := true, rows := fun _ => none,
         ts := 0, afterReplay := fun _ => [] } : ReaderState Nat Nat)
      7 false = (.ok [], true) :=
  lookup_nonblocking_miss _ _ rfl rfl rfl

/-- C10: `coerce_f64` rejects every NaN or infinite input with a
`DfValueConversionError`, for every target SQL type. -/
theorem coerce_f64_nonfinite_is_error (fmtF64 : ℚ → String)
    (from_f64_retain : ℚ → Option ℚ)
    (coerceInteger : ℤ → SqlType → Except DfValueConversionError DfValue)
    (val : F64) (to_ty : SqlType)
    (h : val.is_nan = true ∨ val.is_infinite = true) :
    ∃ deets, coerce_f64 fmtF64 from_f64_retain coerceInteger val to_ty =
      .error { src_type := "Double", target_type := to_ty.displayName,
               details := deets } := by
  cases val with
  | nan => exact ⟨"Nan not allowed", by simp [coerce_f64, F64.is_nan, F64.is_infinite]⟩
  | inf neg => exact ⟨"±inf not allowed", by simp [coerce_f64, F64.is_infinite]⟩
  | finite q => simp [F64.is_nan, F64.is_infinite] at h

/-- C10 witness: NaN coerced to TEXT errors out. -/
theorem coerce_f64_nonfinite_is_error_witness :
    ∃ deets,
      coerce_f64 (fun _ => "") (fun _ => none) (fun _ _ => .ok .other)
        F64.nan SqlType.Text =
        .error { src_type := "Double",
                 target_type := SqlType.Text.displayName, details := deets } :=
  coerce_f64_nonfinite_is_error _ _ _ _ _ (Or.inl rfl)

/-- C9: a packet to a base sharded over `n > 1` shards whose sharding key
is a single column and whose records all carry the same key value is sent
whole to shard `shard_by(key, n)`; no panic branch fires. -/
theorem base_send_uniform_packet [DecidableEq V] (hash : V → Nat)
    (n c : Nat) (v : V) (r0 : Rec V) (rest : List (Rec V))
    (hn : 1 < n) (hk : extractKey c r0 = some v)
    (hall : ∀ r ∈ r0 :: rest, recMatches c v r = true) :
    base_send hash n [c] (r0 :: rest) = .ok (shard_by hash v n) := by
  have hn1 : n ≠ 1 := by omega
  simp [base_send, hn1, hk, List.all_eq_true.mpr hall]

/-- C9 witness: a two-record positive/negative packet keyed on column 0
with shared key value 5, sent to a 2-sharded base, lands on shard 1. -/
theorem base_send_uniform_packet_witness :
    base_send (fun v => v) 2 [0]
      [Rec.positive [5], Rec.negative [5, 9]] = .ok 1 :=
  base_send_uniform_packet (fun v => v) 2 0 5 (Rec.positive [5])
    [Rec.negative [5, 9]] (by norm_num) rfl (by decide)

/-- A poisoned client never performs I/O again: every remaining send
returns `Poisoned` untouched by the oracle. -/
theorem runSends_poisoned (os : List (Except SendError R)) :
    runSends ⟨true⟩ os = os.map fun _ => (.error .Poisoned, false) := by
  induction os with
  | nil => rfl
  | cons io rest ih => simp [runSends, rpcSend, ih]

/-- A poisoned endpoint only ever reports `Disconnected` again. -/
theorem runRecvs_poisoned (rs : List (Except (ReceiveError E) Q)) :
    runRecvs ⟨true⟩ rs = rs.map fun _ => .error .Disconnected := by
  induction rs with
  | nil => rfl
  | cons recv rest ih => simp [runRecvs, tryRecv, ih]

/-- If a send attempt's caller-visible result is an error, the client
state afterwards is poisoned. -/
theorem rpcSend_err_poisons (st : RpcClientState) (io : Except SendError R)
    (h : (rpcSend st io).1.isOk = false) : (rpcSend st io).2.1 = ⟨true⟩ := by
  rcases st with ⟨_ | _⟩
  · cases io with
    | ok r => simp [rpcSend, Except.isOk, Except.toBool] at h
    | error e => simp [rpcSend]
  · simp [rpcSend]

/-- If a `try_recv` result is `Disconnected` or a deserialization error,
the endpoint state afterwards is poisoned. -/
theorem tryRecv_err_poisons (st : EndpointState)
    (recv : Except (ReceiveError E) Q)
    (h : (tryRecv st recv).1 = .error .Disconnected ∨
      ∃ e, (tryRecv st recv).1 = .error (.DeserializationError e)) :
    (tryRecv st recv).2 = ⟨true⟩ := by
  rcases st with ⟨_ | _⟩
  · cases recv with
    | ok msg => simp [tryRecv] at h
    | error e =>
      cases e with
      | WouldBlock => simp [tryRecv] at h
      | IoError => simp [tryRecv]
      | DeserializationError e => simp [tryRecv]
  · simp [tryRecv]

/-- C5: once a send fails, the `RpcClient` is poisoned — the failing call
surfaces the underlying error, and every subsequent `send` returns
`SendError::Poisoned` without performing any I/O; symmetrically, an I/O
or deserialization error in `RpcServiceEndpoint::try_recv` poisons the
endpoint, so every subsequent `try_recv` returns `Disconnected`. -/
theorem rpc_send_failure_poisons :
    (∀ (st : RpcClientState) (e : SendError), st.poisoned = false →
      rpcSend (R := R) st (.error e) = (.error e, ⟨true⟩, true)) ∧
    (∀ (st : RpcClientState) (io : Except SendError R), st.poisoned = true →
      rpcSend st io = (.error .Poisoned, st, false)) ∧
    (∀ (st : RpcClientState) (os : List (Except SendError R))
        (i j : Nat) (p : Except SendError R × Bool), i < j → j < os.length →
      (runSends st os)[i]? = some p → p.1.isOk = false →
      (runSends st os)[j]? = some (.error .Poisoned, false)) ∧
    (∀ (est : EndpointState) (rs : List (Except (ReceiveError E) Q))
        (i j : Nat) (r : Except (TryRecvError E) Q), i < j → j < rs.length →
      (runRecvs est rs)[i]? = some r →
      (r = .error .Disconnected ∨
        ∃ e, r = .error (.DeserializationError e)) →
      (runRecvs est rs)[j]? = some (.error .Disconnected)) := by
  refine ⟨?_, ?_, ?_, ?_⟩
  · intro st e h
    rcases st with ⟨_ | _⟩
    · simp [rpcSend]
    · simp at h
  · intro st io h
    rcases st with ⟨_ | _⟩
    · simp at h
    · simp [rpcSend]
  · intro st os
    induction os generalizing st with
    | nil => intro i j p _ hj; simp at hj
    | cons io rest ih =>
      intro i j p hij hj hi hbad
      cases i with
      | zero =>
        cases j with
        | zero => omega
        | succ j' =>
          have hp : p = ((rpcSend st io).1, (rpcSend st io).2.2) := by
            simpa [runSends] using hi.symm
          have hpois : (rpcSend st io).2.1 = ⟨true⟩ :=
            rpcSend_err_poisons st io (by rw [hp] at hbad; exact hbad)
          have : (runSends st (io :: rest))[j' + 1]? =
              (runSends (rpcSend st io).2.1 rest)[j']? := by
            simp [runSends]
          rw [this, hpois, runSends_poisoned]
          have hj' : j' < rest.length := by simpa using hj
          simp [List.getElem?_eq_getElem, hj']
      | succ i' =>
        cases j with
        | zero => omega
        | succ j' =>
          have h1 : (runSends st (io :: rest))[i' + 1]? =
              (runSends (rpcSend st io).2.1 rest)[i']? := by
            simp [runSends]
          have h2 : (runSends st (io :: rest))[j' + 1]? =
              (runSends (rpcSend st io).2.1 rest)[j']? := by
            simp [runSends]
          rw [h2]
          exact ih (rpcSend st io).2.1 i' j' p (by omega) (by simpa using hj)
            (by rw [← h1]; exact hi) hbad
  · intro est rs
    induction rs generalizing est with
    | nil => intro i j r _ hj; simp at hj
    | cons recv rest ih =>
      intro i j r hij hj hi hbad
      cases i with
      | zero =>
        cases j with
        | zero => omega
        | succ j' =>
          have hr : r = (tryRecv est recv).1 := by
            simpa [runRecvs] using hi.symm
          have hpois : (tryRecv est recv).2 = ⟨true⟩ :=
            tryRecv_err_poisons est recv (by rw [← hr]; exact hbad)
          have : (runRecvs est (recv :: rest))[j' + 1]? =
              (runRecvs (tryRecv est recv).2 rest)[j']? := by
            simp [runRecvs]
          rw [this, hpois, runRecvs_poisoned]
          have hj' : j' < rest.length := by simpa using hj
          simp [List.getElem?_eq_getElem, hj']
      | succ i' =>
        cases j with
        | zero => omega
        | succ j' =>
          have h1 : (runRecvs est (recv :: rest))[i' + 1]? =
              (runRecvs (tryRecv est recv).2 rest)[i']? := by
            simp [runRecvs]
          have h2 : (runRecvs est (recv :: rest))[j' + 1]? =
              (runRecvs (tryRecv est recv).2 rest)[j']? := by
            simp [runRecvs]
          rw [h2]
          exact ih (tryRecv est recv).2 i' j' r (by omega) (by simpa using hj)
            (by rw [← h1]; exact hi) hbad

/-- C5 witness: an I/O failure on the first send poisons the client (the
second send returns `Poisoned` without I/O), and an I/O failure on the
first `try_recv` leaves the endpoint reporting `Disconnected`. -/
theorem rpc_send_failure_poisons_witness :
    (runSends (R := Nat) ⟨false⟩ [.error .IoError, .ok 3])[1]? =
      some (.error .Poisoned, false) ∧
    (runRecvs (E := Unit) (Q := Nat) ⟨false⟩ [.error .IoError, .ok 3])[1]? =
      some (.error .Disconnected) :=
  ⟨(rpc_send_failure_poisons (R := Nat) (E := Unit) (Q := Nat)).2.2.1
      ⟨false⟩ [.error .IoError, .ok 3] 0 1 (.error .IoError, true)
      (by omega) (by norm_num) rfl rfl,
    (rpc_send_failure_poisons (R := Nat) (E := Unit) (Q := Nat)).2.2.2
      ⟨false⟩ [.error .IoError, .ok 3] 0 1 (.error .Disconnected)
      (by omega) (by norm_num) rfl (Or.inl rfl)⟩

/-- Reading the four prefix bytes back yields the size reduced mod `2^32`. -/
theorem decodeU32be_u32be_castU32 (n : Nat) :
    decodeU32be (u32be (castU32 n)) = n % 2 ^ 32 := by
  simp only [decodeU32be, u32be, castU32]
  omega

/-- The frame is the four prefix bytes followed by the payload. -/
theorem sendFrame_take_drop (serialize : Q → List Nat) (q : Q) :
    (sendFrame serialize q).take 4 = u32be (castU32 (serialize q).length) ∧
      (sendFrame serialize q).drop 4 = serialize q :=
  ⟨List.take_left' rfl, List.drop_left' rfl⟩

/-- C6 counterexample: `send_internal` computes the length prefix with a
truncating `as u32` cast, so for a 2^32-byte payload the prefix reads
back 0, not the payload size. -/
theorem frame_length_field_cex :
    decodeU32be
        ((sendFrame (fun _ : Unit => List.replicate (2 ^ 32) 0) ()).take 4) ≠
      (List.replicate (2 ^ 32) (0 : Nat)).length := by
  have h1 : (sendFrame (fun _ : Unit => List.replicate (2 ^ 32) 0) ()).take 4 =
      u32be (castU32 (List.replicate (2 ^ 32) (0 : Nat)).length) :=
    List.take_left' rfl
  rw [h1, List.length_replicate]
  have h2 : castU32 (2 ^ 32) = 0 := by norm_num [castU32]
  rw [h2]
  norm_num [u32be, decodeU32be]

/-- C6 amended: every frame is the 4-byte big-endian encoding of the
serialized payload size reduced mod `2^32` (the size is cast `as u32`),
followed by the payload; whenever the payload is smaller than `2^32`
bytes the prefix equals the payload size exactly. -/
theorem frame_length_field (serialize : Q → List Nat) (q : Q) :
    (sendFrame serialize q).take 4 =
        u32be ((serialize q).length % 2 ^ 32) ∧
      (sendFrame serialize q).drop 4 = serialize q ∧
      decodeU32be ((sendFrame serialize q).take 4) =
        (serialize q).length % 2 ^ 32 ∧
      ((serialize q).length < 2 ^ 32 →
        decodeU32be ((sendFrame serialize q).take 4) =
          (serialize q).length) := by
  have ht : (sendFrame serialize q).take 4 =
      u32be (castU32 (serialize q).length) := List.take_left' rfl
  refine ⟨ht, List.drop_left' rfl, ?_, ?_⟩
  · rw [ht, decodeU32be_u32be_castU32]
  · intro h
    rw [ht, decodeU32be_u32be_castU32]
    exact Nat.mod_eq_of_lt h

/-- C6 witness: a concrete two-byte payload gets the prefix 2. -/
theorem frame_length_field_witness :
    (sendFrame (fun _ : Unit => [7, 8]) ()).drop 4 = [7, 8] ∧
      decodeU32be ((sendFrame (fun _ : Unit => [7, 8]) ()).take 4) = 2 :=
  ⟨(frame_length_field (fun _ : Unit => [7, 8]) ()).2.1,
    (frame_length_field (fun _ : Unit => [7, 8]) ()).2.2.2 (by norm_num)⟩

/-- C7 counterexample: a frame larger than the claimed 64 MiB ceiling is
framed and sent successfully — the send path serializes with
`bincode::Infinite` and performs no size check, so nothing is rejected. -/
theorem oversize_frame_not_rejected_cex :
    64 * 1024 * 1024 < (List.replicate (2 ^ 26 + 1) (37 : Nat)).length ∧
      (sendFrame (fun _ : Unit => List.replicate (2 ^ 26 + 1) 37) ()).drop 4 =
        List.replicate (2 ^ 26 + 1) 37 ∧
      rpcSend (R := Nat) ⟨false⟩ (.ok 5) = (.ok 5, ⟨false⟩, true) := by
  refine ⟨?_, List.drop_left' rfl, by simp [rpcSend]⟩
  rw [List.length_replicate]
  norm_num

/-- C7 amended: no size ceiling is enforced on outbound frames — the
whole payload is framed and the send succeeds whenever the I/O does,
regardless of size — while a malformed inbound payload does surface a
structured decode error (`TryRecvError::DeserializationError`) and
poisons the endpoint. -/
theorem no_size_ceiling {M : Type} (serialize : Q → List Nat) (q : Q) (r : R)
    (est : EndpointState) (e : E) (hep : est.poisoned = false) :
    (sendFrame serialize q).drop 4 = serialize q ∧
      rpcSend (⟨false⟩ : RpcClientState) (.ok r) = (.ok r, ⟨false⟩, true) ∧
      tryRecv (Q := M) est (.error (.DeserializationError e)) =
        (.error (.DeserializationError e), ⟨true⟩) := by
  refine ⟨List.drop_left' rfl, by simp [rpcSend], ?_⟩
  rcases est with ⟨_ | _⟩
  · simp [tryRecv]
  · simp at hep

/-- A bucket other than the one pushed to is unchanged. -/
theorem pushKey_getD_ne (hash : V → Nat) (n : Nat) (acc : List (List V))
    (key : V) (i : Nat) (h : i ≠ shard_by hash key n) :
    (pushKey hash n acc key).getD i [] = acc.getD i [] := by
  simp [pushKey, List.getD_eq_getElem?_getD, List.getElem?_set_ne (Ne.symm h)]

/-- The pushed-to bucket gains exactly the pushed key at its end. -/
theorem pushKey_getD_self (hash : V → Nat) (n : Nat) (acc : List (List V))
    (key : V) (h : shard_by hash key n < acc.length) :
    (pushKey hash n acc key).getD (shard_by hash key n) [] =
      acc.getD (shard_by hash key n) [] ++ [key] := by
  simp [pushKey, List.getD_eq_getElem?_getD, List.getElem?_set_self h]

/-- Pushing keys never removes anything from a bucket. -/
theorem mem_pushKey_of_mem (hash : V → Nat) (n : Nat) (acc : List (List V))
    (key : V) (i : Nat) (x : V) (hx : x ∈ acc.getD i []) :
    x ∈ (pushKey hash n acc key).getD i [] := by
  by_cases hi : i = shard_by hash key n
  · by_cases hlt : shard_by hash key n < acc.length
    · rw [hi, pushKey_getD_self hash n acc key hlt]
      exact List.mem_append_of_mem_left _ (hi ▸ hx)
    · rw [pushKey, List.set_eq_of_length_le (by omega)]
      exact hx
  · rw [pushKey_getD_ne hash n acc key i hi]
    exact hx

/-- Folding the push loop preserves the number of buckets. -/
theorem length_foldl_pushKey (hash : V → Nat) (n : Nat) :
    ∀ (keys : List V) (acc : List (List V)),
      (keys.foldl (pushKey hash n) acc).length = acc.length := by
  intro keys
  induction keys with
  | nil => intro acc; rfl
  | cons key rest ih =>
    intro acc
    rw [List.foldl_cons, ih]
    simp [pushKey]

/-- Folding the push loop preserves bucket membership. -/
theorem mem_foldl_pushKey_of_mem (hash : V → Nat) (n : Nat) :
    ∀ (keys : List V) (acc : List (List V)) (i : Nat) (x : V),
      x ∈ acc.getD i [] → x ∈ (keys.foldl (pushKey hash n) acc).getD i [] := by
  intro keys
  induction keys with
  | nil => intro acc i x hx; exact hx
  | cons key rest ih =>
    intro acc i x hx
    rw [List.foldl_cons]
    exact ih _ i x (mem_pushKey_of_mem hash n acc key i x hx)

/-- Bucket soundness: if every key already in a bucket hashes to that
bucket, the same holds after routing any list of keys. -/
theorem foldl_pushKey_sound (hash : V → Nat) (n : Nat) :
    ∀ (keys : List V) (acc : List (List V)),
      (∀ i x, x ∈ acc.getD i [] → shard_by hash x n = i) →
      ∀ i x, x ∈ (keys.foldl (pushKey hash n) acc).getD i [] →
        shard_by hash x n = i := by
  intro keys
  induction keys with
  | nil => intro acc hinv; exact hinv
  | cons key rest ih =>
    intro acc hinv
    rw [List.foldl_cons]
    refine ih _ ?_
    intro i x hx
    by_cases hi : i = shard_by hash key n
    · subst hi
      by_cases hlt : shard_by hash key n < acc.length
      · rw [pushKey_getD_self hash n acc key hlt] at hx
        rcases List.mem_append.1 hx with hx | hx
        · exact hinv _ x hx
        · rw [List.mem_singleton.1 hx]
      · rw [pushKey, List.set_eq_of_length_le (by omega)] at hx
        exact hinv _ x hx
    · rw [pushKey_getD_ne hash n acc key i hi] at hx
      exact hinv i x hx

/-- Every routed key ends up in its `shard_by` bucket. -/
theorem mem_foldl_pushKey_bucket (hash : V → Nat) (n : Nat) :
    ∀ (keys : List V) (acc : List (List V)) (k : V), k ∈ keys →
      shard_by hash k n < acc.length →
      k ∈ (keys.foldl (pushKey hash n) acc).getD (shard_by hash k n) [] := by
  intro keys
  induction keys with
  | nil => intro acc k hk; exact absurd hk (List.not_mem_nil k)
  | cons key rest ih =>
    intro acc k hk hlen
    rw [List.foldl_cons]
    rcases List.mem_cons.1 hk with hk | hk
    · subst hk
      refine mem_foldl_pushKey_of_mem hash n rest _ _ k ?_
      rw [pushKey_getD_self hash n acc k hlen]
      exact List.mem_append_of_mem_right _ (List.mem_singleton.2 rfl)
    · exact ih _ k hk (by simpa [pushKey] using hlen)

/-- C3: with `n > 1` shards, reader lookups bucket every key into exactly
the `shard_by(key, n)` bucket of `shard_queries`, and `base_send` routes
a packet carrying key value `v` to that same shard index, so a written
row and a lookup for its key meet at the same shard. -/
theorem sharded_routing_consistent [DecidableEq V] (hash : V → Nat)
    (n c : Nat) (v : V) (keys : List V) (r0 : Rec V) (rest : List (Rec V))
    (hn : 1 < n) (hv : v ∈ keys) (hk : extractKey c r0 = some v)
    (hall : ∀ r ∈ r0 :: rest, recMatches c v r = true) :
    shard_by hash v n < n ∧
      v ∈ (shardQueries hash n keys).getD (shard_by hash v n) [] ∧
      (∀ i x, x ∈ (shardQueries hash n keys).getD i [] →
        shard_by hash x n = i) ∧
      base_send hash n [c] (r0 :: rest) = .ok (shard_by hash v n) := by
  have hn0 : 0 < n := by omega
  refine ⟨Nat.mod_lt _ hn0, ?_, ?_, ?_⟩
  · exact mem_foldl_pushKey_bucket hash n keys _ v hv
      (by simpa using Nat.mod_lt (hash v) hn0)
  · refine foldl_pushKey_sound hash n keys _ ?_
    intro i x hx
    rw [List.getD_eq_getElem?_getD, List.getElem?_replicate] at hx
    by_cases hi : i < n <;> simp [hi] at hx
  · have hn1 : n ≠ 1 := by omega
    simp [base_send, hn1, hk, List.all_eq_true.mpr hall]

/-- C3 witness: two shards, keys 4 and 5; key 5 is looked up on shard 1,
and a base packet with key value 5 is written to shard 1 as well. -/
theorem sharded_routing_consistent_witness :
    shard_by (fun v => v) 5 2 < 2 ∧
      5 ∈ (shardQueries (fun v => v) 2 [4, 5]).getD
        (shard_by (fun v => v) 5 2) [] ∧
      (∀ i x, x ∈ (shardQueries (fun v => v) 2 [4, 5]).getD i [] →
        shard_by (fun v => v) x 2 = i) ∧
      base_send (fun v => v) 2 [0] [Rec.positive [5, 7]] =
        .ok (shard_by (fun v => v) 5 2) :=
  sharded_routing_consistent (fun v => v) 2 0 5 [4, 5] (Rec.positive [5, 7])
    [] (by norm_num) (by decide) rfl (by decide)

/-- If all occurrences of `a` lie in `X` and all occurrences of `b` lie
in `Y`, then `a` occurs before `b` in `X ++ Y`. -/
theorem occursBefore_append {α : Type} {X Y : List α} {a b : α}
    (ha : a ∉ Y) (hb : b ∉ X) : occursBefore (X ++ Y) a b := by
  intro i j hi hj
  have hiX : i < X.length := by
    by_contra hc
    push_neg at hc
    rw [List.getElem?_append_right hc] at hi
    exact ha (List.getElem?_mem hi)
  have hjX : X.length ≤ j := by
    by_contra hc
    push_neg at hc
    rw [List.getElem?_append_left hc] at hj
    exact hb (List.getElem?_mem hj)
  omega

/-- Every step of a domain segment is a local-address assignment or an
`on_commit` invocation for that domain. -/
theorem mem_domainSegment {isInt : Nat → Bool} {d : Nat} {ns : List Nat}
    {s : CommitStep} (h : s ∈ domainSegment isInt d ns) :
    (∃ x ∈ ns, s = CommitStep.assignLocal d x) ∨
      (∃ x ∈ ns, s = CommitStep.onCommit d x) := by
  rcases List.mem_append.1 h with h | h
  · rcases List.mem_map.1 h with ⟨x, hx, rfl⟩
    exact Or.inl ⟨x, hx, rfl⟩
  · rcases List.mem_map.1 h with ⟨x, hx, rfl⟩
    exact Or.inr ⟨x, List.mem_of_mem_filter hx, rfl⟩

/-- Every step of the concatenated domain segments belongs to some listed
domain. -/
theorem mem_segments {isInt : Nat → Bool} {dn : List (Nat × List Nat)}
    {s : CommitStep}
    (h : s ∈ dn.flatMap fun p => domainSegment isInt p.1 p.2) :
    ∃ p ∈ dn, ((∃ x ∈ p.2, s = CommitStep.assignLocal p.1 x) ∨
      (∃ x ∈ p.2, s = CommitStep.onCommit p.1 x)) := by
  rcases List.mem_flatMap.1 h with ⟨p, hp, hs⟩
  exact ⟨p, hp, mem_domainSegment hs⟩

/-- A step that is neither a local-address assignment nor an `on_commit`
never occurs inside the domain segments. -/
theorem ctrl_not_mem_segments {isInt : Nat → Bool}
    {l : List (Nat × List Nat)} {s : CommitStep}
    (h1 : ∀ a x, s ≠ CommitStep.assignLocal a x)
    (h2 : ∀ a x, s ≠ CommitStep.onCommit a x) :
    s ∉ l.flatMap fun p => domainSegment isInt p.1 p.2 := by
  intro hm
  rcases mem_segments hm with ⟨p, _, (⟨x, _, h⟩ | ⟨x, _, h⟩)⟩
  · exact h1 p.1 x h
  · exact h2 p.1 x h

/-- A local-address assignment for domain `d` never occurs inside the
segments of a domain list that does not contain `d`. -/
theorem assignLocal_not_mem_segments {isInt : Nat → Bool}
    {l : List (Nat × List Nat)} {d ni : Nat} (hd : d ∉ l.map Prod.fst) :
    CommitStep.assignLocal d ni ∉
      l.flatMap fun p => domainSegment isInt p.1 p.2 := by
  intro hm
  rcases mem_segments hm with ⟨p, hp, (⟨x, _, h⟩ | ⟨x, _, h⟩)⟩
  · injection h with h1 _
    exact hd (h1 ▸ List.mem_map_of_mem Prod.fst hp)
  · exact nomatch h

/-- An `on_commit` step for domain `d` never occurs inside the segments
of a domain list that does not contain `d`. -/
theorem onCommit_not_mem_segments {isInt : Nat → Bool}
    {l : List (Nat × List Nat)} {d ni : Nat} (hd : d ∉ l.map Prod.fst) :
    CommitStep.onCommit d ni ∉
      l.flatMap fun p => domainSegment isInt p.1 p.2 := by
  intro hm
  rcases mem_segments hm with ⟨p, hp, (⟨x, _, h⟩ | ⟨x, _, h⟩)⟩
  · exact nomatch h
  · injection h with h1 _
    exact hd (h1 ▸ List.mem_map_of_mem Prod.fst hp)

/-- Neither half of an append contains `a` if both halves avoid it. -/
theorem not_mem_append {α : Type} {a : α} {l₁ l₂ : List α}
    (h1 : a ∉ l₁) (h2 : a ∉ l₂) : a ∉ l₁ ++ l₂ := fun h =>
  (List.mem_append.1 h).elim h1 h2

/-- C4 amended: in `Migration::commit`, sharder insertion (the sharding
pass) runs *before* domain assignment; domain assignment runs before
ingress/egress insertion; each new node's local-index assignment comes
after that and before its `on_commit`; replay-path installation and
index priming (the materializations commit) come after every
`on_commit`; and nodes are marked Ready after all of those steps. -/
theorem commit_step_order (se : Bool) (isInt : Nat → Bool)
    (dn : List (Nat × List Nat)) (d ni : Nat) (ns : List Nat)
    (hmem : (d, ns) ∈ dn) (hni : ni ∈ ns) (hint : isInt ni = true)
    (hdom : (dn.map Prod.fst).Nodup) :
    CommitStep.assignDomains ∈ commitTrace se isInt dn ∧
      CommitStep.routingAdd ∈ commitTrace se isInt dn ∧
      CommitStep.assignLocal d ni ∈ commitTrace se isInt dn ∧
      CommitStep.onCommit d ni ∈ commitTrace se isInt dn ∧
      CommitStep.installReplayPaths ∈ commitTrace se isInt dn ∧
      CommitStep.primeIndices ∈ commitTrace se isInt dn ∧
      CommitStep.markReady ∈ commitTrace se isInt dn ∧
      occursBefore (commitTrace se isInt dn) CommitStep.assignDomains
        CommitStep.routingAdd ∧
      occursBefore (commitTrace se isInt dn) CommitStep.routingAdd
        (CommitStep.assignLocal d ni) ∧
      occursBefore (commitTrace se isInt dn) (CommitStep.assignLocal d ni)
        (CommitStep.onCommit d ni) ∧
      occursBefore (commitTrace se isInt dn) (CommitStep.onCommit d ni)
        CommitStep.installReplayPaths ∧
      occursBefore (commitTrace se isInt dn) (CommitStep.onCommit d ni)
        CommitStep.primeIndices ∧
      occursBefore (commitTrace se isInt dn) CommitStep.installReplayPaths
        CommitStep.markReady ∧
      occursBefore (commitTrace se isInt dn) CommitStep.primeIndices
        CommitStep.markReady ∧
      occursBefore (commitTrace se isInt dn) (CommitStep.assignLocal d ni)
        CommitStep.markReady ∧
      occursBefore (commitTrace se isInt dn) (CommitStep.onCommit d ni)
        CommitStep.markReady ∧
      occursBefore (commitTrace se isInt dn) CommitStep.assignDomains
        CommitStep.markReady ∧
      occursBefore (commitTrace se isInt dn) CommitStep.routingAdd
        CommitStep.markReady ∧
      (se = true → CommitStep.shard ∈ commitTrace se isInt dn ∧
        occursBefore (commitTrace se isInt dn) CommitStep.shard
          CommitStep.assignDomains) := by
  obtain ⟨pre, post, hdn⟩ := List.append_of_mem hmem
  subst hdn
  have hnodup : (pre.map Prod.fst ++ d :: post.map Prod.fst).Nodup := by
    simpa using hdom
  rw [List.nodup_middle, List.nodup_cons] at hnodup
  have hdpre : d ∉ pre.map Prod.fst := fun hc =>
    hnodup.1 (List.mem_append_of_mem_left _ hc)
  have hdpost : d ∉ post.map Prod.fst := fun hc =>
    hnodup.1 (List.mem_append_of_mem_right _ hc)
  have hnotH : ∀ s : CommitStep, s ≠ CommitStep.shard →
      s ∉ (if se then [CommitStep.shard] else []) := by
    intro s hs
    cases se <;> simp [hs]
  have hmap_aL : ∀ {s : CommitStep}, (∀ x, s ≠ CommitStep.assignLocal d x) →
      s ∉ ns.map (CommitStep.assignLocal d) := by
    intro s h hm
    rcases List.mem_map.1 hm with ⟨x, _, hx⟩
    exact h x hx.symm
  have hmap_oC : ∀ {s : CommitStep}, (∀ x, s ≠ CommitStep.onCommit d x) →
      s ∉ (ns.filter isInt).map (CommitStep.onCommit d) := by
    intro s h hm
    rcases List.mem_map.1 hm with ⟨x, _, hx⟩
    exact h x hx.symm
  have htr : commitTrace se isInt (pre ++ (d, ns) :: post) =
      (if se then [CommitStep.shard] else []) ++
        ([CommitStep.assignDomains] ++ ([CommitStep.routingAdd] ++
          ((pre.flatMap fun p => domainSegment isInt p.1 p.2) ++
            (ns.map (CommitStep.assignLocal d) ++
              ((ns.filter isInt).map (CommitStep.onCommit d) ++
                ((post.flatMap fun p => domainSegment isInt p.1 p.2) ++
                  ([CommitStep.analyzeGraph, CommitStep.performMigration,
                    CommitStep.bootDomains, CommitStep.inform,
                    CommitStep.baseColumnChanges, CommitStep.routingConnect] ++
                    ([CommitStep.installReplayPaths] ++
                      ([CommitStep.primeIndices] ++
                        ([CommitStep.markReady] ++
                          [CommitStep.addReplayPathsToChecktable,
                           CommitStep.finalizeTransactions])))))))))) := by
    simp [commitTrace, domainSegment, List.append_assoc]
  refine ⟨?_, ?_, ?_, ?_, ?_, ?_, ?_, ?_, ?_, ?_, ?_, ?_, ?_, ?_, ?_, ?_,
    ?_, ?_, ?_⟩
  · rw [htr]
    exact List.mem_append_of_mem_right _ (List.mem_append_of_mem_left _
      (by simp))
  · rw [htr]
    exact List.mem_append_of_mem_right _ (List.mem_append_of_mem_right _
      (List.mem_append_of_mem_left _ (by simp)))
  · rw [htr]
    exact List.mem_append_of_mem_right _ (List.mem_append_of_mem_right _
      (List.mem_append_of_mem_right _ (List.mem_append_of_mem_right _
        (List.mem_append_of_mem_left _ (List.mem_map_of_mem _ hni)))))
  · rw [htr]
    exact List.mem_append_of_mem_right _ (List.mem_append_of_mem_right _
      (List.mem_append_of_mem_right _ (List.mem_append_of_mem_right _
        (List.mem_append_of_mem_right _ (List.mem_append_of_mem_left _
          (List.mem_map_of_mem _ (List.mem_filter.2 ⟨hni, hint⟩)))))))
  · rw [htr]
    exact List.mem_append_of_mem_right _ (List.mem_append_of_mem_right _
      (List.mem_append_of_mem_right _ (List.mem_append_of_mem_right _
        (List.mem_append_of_mem_right _ (List.mem_append_of_mem_right _
          (List.mem_append_of_mem_right _ (List.mem_append_of_mem_right _
            (List.mem_append_of_mem_left _ (by simp)))))))))
  · rw [htr]
    exact List.mem_append_of_mem_right _ (List.mem_append_of_mem_right _
      (List.mem_append_of_mem_right _ (List.mem_append_of_mem_right _
        (List.mem_append_of_mem_right _ (List.mem_append_of_mem_right _
          (List.mem_append_of_mem_right _ (List.mem_append_of_mem_right _
            (List.mem_append_of_mem_right _ (List.mem_append_of_mem_left _
              (by simp))))))))))
  · rw [htr]
    exact List.mem_append_of_mem_right _ (List.mem_append_of_mem_right _
      (List.mem_append_of_mem_right _ (List.mem_append_of_mem_right _
        (List.mem_append_of_mem_right _ (List.mem_append_of_mem_right _
          (List.mem_append_of_mem_right _ (List.mem_append_of_mem_right _
            (List.mem_append_of_mem_right _ (List.mem_append_of_mem_right _
              (List.mem_append_of_mem_left _ (by simp)))))))))))
  · -- assignDomains before routingAdd
    have hs : commitTrace se isInt (pre ++ (d, ns) :: post) =
        ((if se then [CommitStep.shard] else []) ++
          [CommitStep.assignDomains]) ++
          ([CommitStep.routingAdd] ++
            ((pre.flatMap fun p => domainSegment isInt p.1 p.2) ++
              (ns.map (CommitStep.assignLocal d) ++
                ((ns.filter isInt).map (CommitStep.onCommit d) ++
                  ((post.flatMap fun p => domainSegment isInt p.1 p.2) ++
                    [CommitStep.analyzeGraph, CommitStep.performMigration,
                     CommitStep.bootDomains, CommitStep.inform,
                     CommitStep.baseColumnChanges, CommitStep.routingConnect,
                     CommitStep.installReplayPaths, CommitStep.primeIndices,
                     CommitStep.markReady,
                     CommitStep.addReplayPathsToChecktable,
                     CommitStep.finalizeTransactions]))))) := by
      simp [commitTrace, domainSegment, List.append_assoc]
    rw [hs]
    refine occursBefore_append ?_ ?_
    · exact not_mem_append (by simp)
        (not_mem_append
          (ctrl_not_mem_segments (fun _ _ h => nomatch h) (fun _ _ h => nomatch h))
          (not_mem_append (hmap_aL fun _ h => nomatch h)
            (not_mem_append (hmap_oC fun _ h => nomatch h)
              (not_mem_append
                (ctrl_not_mem_segments (fun _ _ h => nomatch h)
                  (fun _ _ h => nomatch h))
                (by simp)))))
    · exact not_mem_append (hnotH _ (by simp)) (by simp)
  · -- routingAdd before this node's local-index assignment
    have hs : commitTrace se isInt (pre ++ (d, ns) :: post) =
        ((if se then [CommitStep.shard] else []) ++
          ([CommitStep.assignDomains] ++ [CommitStep.routingAdd])) ++
          ((pre.flatMap fun p => domainSegment isInt p.1 p.2) ++
            (ns.map (CommitStep.assignLocal d) ++
              ((ns.filter isInt).map (CommitStep.onCommit d) ++
                ((post.flatMap fun p => domainSegment isInt p.1 p.2) ++
                  [CommitStep.analyzeGraph, CommitStep.performMigration,
                   CommitStep.bootDomains, CommitStep.inform,
                   CommitStep.baseColumnChanges, CommitStep.routingConnect,
                   CommitStep.installReplayPaths, CommitStep.primeIndices,
                   CommitStep.markReady,
                   CommitStep.addReplayPathsToChecktable,
                   CommitStep.finalizeTransactions])))) := by
      simp [commitTrace, domainSegment, List.append_assoc]
    rw [hs]
    refine occursBefore_append ?_ ?_
    · exact not_mem_append
        (ctrl_not_mem_segments (fun _ _ h => nomatch h) (fun _ _ h => nomatch h))
        (not_mem_append (hmap_aL fun _ h => nomatch h)
          (not_mem_append (hmap_oC fun _ h => nomatch h)
            (not_mem_append
              (ctrl_not_mem_segments (fun _ _ h => nomatch h)
                (fun _ _ h => nomatch h))
              (by simp))))
    · exact not_mem_append (hnotH _ (by simp))
        (not_mem_append (by simp) (by simp))
  · -- local-index assignment before on_commit
    have hs : commitTrace se isInt (pre ++ (d, ns) :: post) =
        ((if se then [CommitStep.shard] else []) ++
          ([CommitStep.assignDomains] ++ ([CommitStep.routingAdd] ++
            ((pre.flatMap fun p => domainSegment isInt p.1 p.2) ++
              ns.map (CommitStep.assignLocal d))))) ++
          ((ns.filter isInt).map (CommitStep.onCommit d) ++
            ((post.flatMap fun p => domainSegment isInt p.1 p.2) ++
              [CommitStep.analyzeGraph, CommitStep.performMigration,
               CommitStep.bootDomains, CommitStep.inform,
               CommitStep.baseColumnChanges, CommitStep.routingConnect,
               CommitStep.installReplayPaths, CommitStep.primeIndices,
               CommitStep.markReady, CommitStep.addReplayPathsToChecktable,
               CommitStep.finalizeTransactions])) := by
      simp [commitTrace, domainSegment, List.append_assoc]
    rw [hs]
    refine occursBefore_append ?_ ?_
    · exact not_mem_append (hmap_oC fun _ h => nomatch h)
        (not_mem_append (assignLocal_not_mem_segments hdpost) (by simp))
    · exact not_mem_append (hnotH _ (by simp))
        (not_mem_append (by simp) (not_mem_append (by simp)
          (not_mem_append (onCommit_not_mem_segments hdpre)
            (hmap_aL fun _ h => nomatch h))))
  · -- on_commit before replay-path installation
    have hs : commitTrace se isInt (pre ++ (d, ns) :: post) =
        ((if se then [CommitStep.shard] else []) ++
          ([CommitStep.assignDomains] ++ ([CommitStep.routingAdd] ++
            ((pre.flatMap fun p => domainSegment isInt p.1 p.2) ++
              (ns.map (CommitStep.assignLocal d) ++
                ((ns.filter isInt).map (CommitStep.onCommit d) ++
                  (post.flatMap fun p => domainSegment isInt p.1 p.2))))))) ++
          [CommitStep.analyzeGraph, CommitStep.performMigration,
           CommitStep.bootDomains, CommitStep.inform,
           CommitStep.baseColumnChanges, CommitStep.routingConnect,
           CommitStep.installReplayPaths, CommitStep.primeIndices,
           CommitStep.markReady, CommitStep.addReplayPathsToChecktable,
           CommitStep.finalizeTransactions] := by
      simp [commitTrace, domainSegment, List.append_assoc]
    rw [hs]
    refine occursBefore_append (by simp) ?_
    · exact not_mem_append (hnotH _ (by simp))
        (not_mem_append (by simp) (not_mem_append (by simp)
          (not_mem_append (ctrl_not_mem_segments
              (fun _ _ h => nomatch h) (fun _ _ h => nomatch h))
            (not_mem_append (hmap_aL fun _ h => nomatch h)
              (not_mem_append (hmap_oC fun _ h => nomatch h)
                (ctrl_not_mem_segments (fun _ _ h => nomatch h)
                  (fun _ _ h => nomatch h)))))))
  · -- on_commit before index priming
    have hs : commitTrace se isInt (pre ++ (d, ns) :: post) =
        ((if se then [CommitStep.shard] else []) ++
          ([CommitStep.assignDomains] ++ ([CommitStep.routingAdd] ++
            ((pre.flatMap fun p => domainSegment isInt p.1 p.2) ++
              (ns.map (CommitStep.assignLocal d) ++
                ((ns.filter isInt).map (CommitStep.onCommit d) ++
                  (post.flatMap fun p => domainSegment isInt p.1 p.2))))))) ++
          [CommitStep.analyzeGraph, CommitStep.performMigration,
           CommitStep.bootDomains, CommitStep.inform,
           CommitStep.baseColumnChanges, CommitStep.routingConnect,
           CommitStep.installReplayPaths, CommitStep.primeIndices,
           CommitStep.markReady, CommitStep.addReplayPathsToChecktable,
           CommitStep.finalizeTransactions] := by
      simp [commitTrace, domainSegment, List.append_assoc]
    rw [hs]
    refine occursBefore_append (by simp) ?_
    · exact not_mem_append (hnotH _ (by simp))
        (not_mem_append (by simp) (not_mem_append (by simp)
          (not_mem_append (ctrl_not_mem_segments
              (fun _ _ h => nomatch h) (fun _ _ h => nomatch h))
            (not_mem_append (hmap_aL fun _ h => nomatch h)
              (not_mem_append (hmap_oC fun _ h => nomatch h)
                (ctrl_not_mem_segments (fun _ _ h => nomatch h)
                  (fun _ _ h => nomatch h)))))))
  · -- replay-path installation before Ready
    have hs : commitTrace se isInt (pre ++ (d, ns) :: post) =
        ((if se then [CommitStep.shard] else []) ++
          ([CommitStep.assignDomains] ++ ([CommitStep.routingAdd] ++
            ((pre.flatMap fun p => domainSegment isInt p.1 p.2) ++
              (ns.map (CommitStep.assignLocal d) ++
                ((ns.filter isInt).map (CommitStep.onCommit d) ++
                  ((post.flatMap fun p => domainSegment isInt p.1 p.2) ++
                    [CommitStep.analyzeGraph, CommitStep.performMigration,
                     CommitStep.bootDomains, CommitStep.inform,
                     CommitStep.baseColumnChanges, CommitStep.routingConnect,
                     CommitStep.installReplayPaths,
                     CommitStep.primeIndices]))))))) ++
          [CommitStep.markReady, CommitStep.addReplayPathsToChecktable,
           CommitStep.finalizeTransactions] := by
      simp [commitTrace, domainSegment, List.append_assoc]
    rw [hs]
    refine occursBefore_append (by simp) ?_
    · exact not_mem_append (hnotH _ (by simp))
        (not_mem_append (by simp) (not_mem_append (by simp)
          (not_mem_append (ctrl_not_mem_segments
              (fun _ _ h => nomatch h) (fun _ _ h => nomatch h))
            (not_mem_append (hmap_aL fun _ h => nomatch h)
              (not_mem_append (hmap_oC fun _ h => nomatch h)
                (not_mem_append (ctrl_not_mem_segments
                    (fun _ _ h => nomatch h) (fun _ _ h => nomatch h))
                  (by simp)))))))
  · -- index priming before Ready
    have hs : commitTrace se isInt (pre ++ (d, ns) :: post) =
        ((if se then [CommitStep.shard] else []) ++
          ([CommitStep.assignDomains] ++ ([CommitStep.routingAdd] ++
            ((pre.flatMap fun p => domainSegment isInt p.1 p.2) ++
              (ns.map (CommitStep.assignLocal d) ++
                ((ns.filter isInt).map (CommitStep.onCommit d) ++
                  ((post.flatMap fun p => domainSegment isInt p.1 p.2) ++
                    [CommitStep.analyzeGraph, CommitStep.performMigration,
                     CommitStep.bootDomains, CommitStep.inform,
                     CommitStep.baseColumnChanges, CommitStep.routingConnect,
                     CommitStep.installReplayPaths,
                     CommitStep.primeIndices]))))))) ++
          [CommitStep.markReady, CommitStep.addReplayPathsToChecktable,
           CommitStep.finalizeTransactions] := by
      simp [commitTrace, domainSegment, List.append_assoc]
    rw [hs]
    refine occursBefore_append (by simp) ?_
    · exact not_mem_append (hnotH _ (by simp))
        (not_mem_append (by simp) (not_mem_append (by simp)
          (not_mem_append (ctrl_not_mem_segments
              (fun _ _ h => nomatch h) (fun _ _ h => nomatch h))
            (not_mem_append (hmap_aL fun _ h => nomatch h)
              (not_mem_append (hmap_oC fun _ h => nomatch h)
                (not_mem_append (ctrl_not_mem_segments
                    (fun _ _ h => nomatch h) (fun _ _ h => nomatch h))
                  (by simp)))))))
  · -- local-index assignment before Ready
    have hs : commitTrace se isInt (pre ++ (d, ns) :: post) =
        ((if se then [CommitStep.shard] else []) ++
          ([CommitStep.assignDomains] ++ ([CommitStep.routingAdd] ++
            ((pre.flatMap fun p => domainSegment isInt p.1 p.2) ++
              (ns.map (CommitStep.assignLocal d) ++
                ((ns.filter isInt).map (CommitStep.onCommit d) ++
                  (post.flatMap fun p => domainSegment isInt p.1 p.2))))))) ++
          [CommitStep.analyzeGraph, CommitStep.performMigration,
           CommitStep.bootDomains, CommitStep.inform,
           CommitStep.baseColumnChanges, CommitStep.routingConnect,
           CommitStep.installReplayPaths, CommitStep.primeIndices,
           CommitStep.markReady, CommitStep.addReplayPathsToChecktable,
           CommitStep.finalizeTransactions] := by
      simp [commitTrace, domainSegment, List.append_assoc]
    rw [hs]
    refine occursBefore_append (by simp) ?_
    · exact not_mem_append (hnotH _ (by simp))
        (not_mem_append (by simp) (not_mem_append (by simp)
          (not_mem_append (ctrl_not_mem_segments
              (fun _ _ h => nomatch h) (fun _ _ h => nomatch h))
            (not_mem_append (hmap_aL fun _ h => nomatch h)
              (not_mem_append (hmap_oC fun _ h => nomatch h)
                (ctrl_not_mem_segments (fun _ _ h => nomatch h)
                  (fun _ _ h => nomatch h)))))))
  · -- on_commit before Ready
    have hs : commitTrace se isInt (pre ++ (d, ns) :: post) =
        ((if se then [CommitStep.shard] else []) ++
          ([CommitStep.assignDomains] ++ ([CommitStep.routingAdd] ++
            ((pre.flatMap fun p => domainSegment isInt p.1 p.2) ++
              (ns.map (CommitStep.assignLocal d) ++
                ((ns.filter isInt).map (CommitStep.onCommit d) ++
                  (post.flatMap fun p => domainSegment isInt p.1 p.2))))))) ++
          [CommitStep.analyzeGraph, CommitStep.performMigration,
           CommitStep.bootDomains, CommitStep.inform,
           CommitStep.baseColumnChanges, CommitStep.routingConnect,
           CommitStep.installReplayPaths, CommitStep.primeIndices,
           CommitStep.markReady, CommitStep.addReplayPathsToChecktable,
           CommitStep.finalizeTransactions] := by
      simp [commitTrace, domainSegment, List.append_assoc]
    rw [hs]
    refine occursBefore_append (by simp) ?_
    · exact not_mem_append (hnotH _ (by simp))
        (not_mem_append (by simp) (not_mem_append (by simp)
          (not_mem_append (ctrl_not_mem_segments
              (fun _ _ h => nomatch h) (fun _ _ h => nomatch h))
            (not_mem_append (hmap_aL fun _ h => nomatch h)
              (not_mem_append (hmap_oC fun _ h => nomatch h)
                (ctrl_not_mem_segments (fun _ _ h => nomatch h)
                  (fun _ _ h => nomatch h)))))))
  · -- domain assignment before Ready
    have hs : commitTrace se isInt (pre ++ (d, ns) :: post) =
        ((if se then [CommitStep.shard] else []) ++
          ([CommitStep.assignDomains] ++ ([CommitStep.routingAdd] ++
            ((pre.flatMap fun p => domainSegment isInt p.1 p.2) ++
              (ns.map (CommitStep.assignLocal d) ++
                ((ns.filter isInt).map (CommitStep.onCommit d) ++
                  (post.flatMap fun p => domainSegment isInt p.1 p.2))))))) ++
          [CommitStep.analyzeGraph, CommitStep.performMigration,
           CommitStep.bootDomains, CommitStep.inform,
           CommitStep.baseColumnChanges, CommitStep.routingConnect,
           CommitStep.installReplayPaths, CommitStep.primeIndices,
           CommitStep.markReady, CommitStep.addReplayPathsToChecktable,
           CommitStep.finalizeTransactions] := by
      simp [commitTrace, domainSegment, List.append_assoc]
    rw [hs]
    refine occursBefore_append (by simp) ?_
    · exact not_mem_append (hnotH _ (by simp))
        (not_mem_append (by simp) (not_mem_append (by simp)
          (not_mem_append (ctrl_not_mem_segments
              (fun _ _ h => nomatch h) (fun _ _ h => nomatch h))
            (not_mem_append (hmap_aL fun _ h => nomatch h)
              (not_mem_append (hmap_oC fun _ h => nomatch h)
                (ctrl_not_mem_segments (fun _ _ h => nomatch h)
                  (fun _ _ h => nomatch h)))))))
  · -- ingress/egress insertion before Ready
    have hs : commitTrace se isInt (pre ++ (d, ns) :: post) =
        ((if se then [CommitStep.shard] else []) ++
          ([CommitStep.assignDomains] ++ ([CommitStep.routingAdd] ++
            ((pre.flatMap fun p => domainSegment isInt p.1 p.2) ++
              (ns.map (CommitStep.assignLocal d) ++
                ((ns.filter isInt).map (CommitStep.onCommit d) ++
                  (post.flatMap fun p => domainSegment isInt p.1 p.2))))))) ++
          [CommitStep.analyzeGraph, CommitStep.performMigration,
           CommitStep.bootDomains, CommitStep.inform,
           CommitStep.baseColumnChanges, CommitStep.routingConnect,
           CommitStep.installReplayPaths, CommitStep.primeIndices,
           CommitStep.markReady, CommitStep.addReplayPathsToChecktable,
           CommitStep.finalizeTransactions] := by
      simp [commitTrace, domainSegment, List.append_assoc]
    rw [hs]
    refine occursBefore_append (by simp) ?_
    · exact not_mem_append (hnotH _ (by simp))
        (not_mem_append (by simp) (not_mem_append (by simp)
          (not_mem_append (ctrl_not_mem_segments
              (fun _ _ h => nomatch h) (fun _ _ h => nomatch h))
            (not_mem_append (hmap_aL fun _ h => nomatch h)
              (not_mem_append (hmap_oC fun _ h => nomatch h)
                (ctrl_not_mem_segments (fun _ _ h => nomatch h)
                  (fun _ _ h => nomatch h)))))))
  · -- sharding enabled: sharder insertion precedes domain assignment
    intro hse
    subst hse
    constructor
    · rw [htr]
      exact List.mem_append_of_mem_left _ (by simp)
    · have hs : commitTrace true isInt (pre ++ (d, ns) :: post) =
          [CommitStep.shard] ++
            ([CommitStep.assignDomains] ++ ([CommitStep.routingAdd] ++
              ((pre.flatMap fun p => domainSegment isInt p.1 p.2) ++
                (ns.map (CommitStep.assignLocal d) ++
                  ((ns.filter isInt).map (CommitStep.onCommit d) ++
                    ((post.flatMap fun p => domainSegment isInt p.1 p.2) ++
                      [CommitStep.analyzeGraph, CommitStep.performMigration,
                       CommitStep.bootDomains, CommitStep.inform,
                       CommitStep.baseColumnChanges,
                       CommitStep.routingConnect,
                       CommitStep.installReplayPaths,
                       CommitStep.primeIndices, CommitStep.markReady,
                       CommitStep.addReplayPathsToChecktable,
                       CommitStep.finalizeTransactions])))))) := by
        simp [commitTrace, domainSegment, List.append_assoc]
      rw [hs]
      refine occursBefore_append ?_ (by simp)
      · exact not_mem_append (by simp) (not_mem_append (by simp)
          (not_mem_append (ctrl_not_mem_segments
              (fun _ _ h => nomatch h) (fun _ _ h => nomatch h))
            (not_mem_append (hmap_aL fun _ h => nomatch h)
              (not_mem_append (hmap_oC fun _ h => nomatch h)
                (not_mem_append (ctrl_not_mem_segments
                    (fun _ _ h => nomatch h) (fun _ _ h => nomatch h))
                  (by simp))))))

/-- C4 witness: a concrete two-domain migration with sharding enabled. -/
theorem commit_step_order_witness :
    CommitStep.assignDomains ∈
        commitTrace true (fun _ => true) [(0, [100]), (1, [101])] ∧
      CommitStep.routingAdd ∈
        commitTrace true (fun _ => true) [(0, [100]), (1, [101])] ∧
      CommitStep.assignLocal 0 100 ∈
        commitTrace true (fun _ => true) [(0, [100]), (1, [101])] ∧
      CommitStep.onCommit 0 100 ∈
        commitTrace true (fun _ => true) [(0, [100]), (1, [101])] ∧
      CommitStep.installReplayPaths ∈
        commitTrace true (fun _ => true) [(0, [100]), (1, [101])] ∧
      CommitStep.primeIndices ∈
        commitTrace true (fun _ => true) [(0, [100]), (1, [101])] ∧
      CommitStep.markReady ∈
        commitTrace true (fun _ => true) [(0, [100]), (1, [101])] ∧
      occursBefore (commitTrace true (fun _ => true) [(0, [100]), (1, [101])])
        CommitStep.assignDomains CommitStep.routingAdd ∧
      occursBefore (commitTrace true (fun _ => true) [(0, [100]), (1, [101])])
        CommitStep.routingAdd (CommitStep.assignLocal 0 100) ∧
      occursBefore (commitTrace true (fun _ => true) [(0, [100]), (1, [101])])
        (CommitStep.assignLocal 0 100) (CommitStep.onCommit 0 100) ∧
      occursBefore (commitTrace true (fun _ => true) [(0, [100]), (1, [101])])
        (CommitStep.onCommit 0 100) CommitStep.installReplayPaths ∧
      occursBefore (commitTrace true (fun _ => true) [(0, [100]), (1, [101])])
        (CommitStep.onCommit 0 100) CommitStep.primeIndices ∧
      occursBefore (commitTrace true (fun _ => true) [(0, [100]), (1, [101])])
        CommitStep.installReplayPaths CommitStep.markReady ∧
      occursBefore (commitTrace true (fun _ => true) [(0, [100]), (1, [101])])
        CommitStep.primeIndices CommitStep.markReady ∧
      occursBefore (commitTrace true (fun _ => true) [(0, [100]), (1, [101])])
        (CommitStep.assignLocal 0 100) CommitStep.markReady ∧
      occursBefore (commitTrace true (fun _ => true) [(0, [100]), (1, [101])])
        (CommitStep.onCommit 0 100) CommitStep.markReady ∧
      occursBefore (commitTrace true (fun _ => true) [(0, [100]), (1, [101])])
        CommitStep.assignDomains CommitStep.markReady ∧
      occursBefore (commitTrace true (fun _ => true) [(0, [100]), (1, [101])])
        CommitStep.routingAdd CommitStep.markReady ∧
      (true = true → CommitStep.shard ∈
          commitTrace true (fun _ => true) [(0, [100]), (1, [101])] ∧
        occursBefore
          (commitTrace true (fun _ => true) [(0, [100]), (1, [101])])
          CommitStep.shard CommitStep.assignDomains) :=
  commit_step_order true (fun _ => true) [(0, [100]), (1, [101])] 0 100
    [100] (by decide) (by decide) rfl (by decide)

/-- C4 counterexample: the claim puts domain assignment *before* sharder
insertion, but `Migration::commit` calls `migrate::sharding::shard`
before `migrate::assignment::assign`: with sharding enabled the trace
starts `[shard, assignDomains, ...]`, so `assignDomains` does not occur
before `shard`. -/
theorem commit_assignment_not_before_sharding_cex :
    CommitStep.shard ∈ commitTrace true (fun _ => false) [] ∧
      CommitStep.assignDomains ∈ commitTrace true (fun _ => false) [] ∧
      ¬ occursBefore (commitTrace true (fun _ => false) [])
        CommitStep.assignDomains CommitStep.shard := by
  refine ⟨by simp [commitTrace], by simp [commitTrace], fun h => ?_⟩
  exact absurd (h 1 0 rfl rfl) (by omega)

/-- C7 witness: the amended statement at a concrete oversized payload and
a concrete endpoint. -/
theorem no_size_ceiling_witness :
    (sendFrame (fun _ : Unit => List.replicate (2 ^ 26 + 1) (41 : Nat)) ()).drop 4 =
        List.replicate (2 ^ 26 + 1) 41 ∧
      rpcSend (⟨false⟩ : RpcClientState) (.ok (9 : Nat)) =
        (.ok 9, ⟨false⟩, true) ∧
      tryRecv (⟨false⟩ : EndpointState) (.error (.DeserializationError ())) =
        ((.error (.DeserializationError ()) : Except (TryRecvError Unit) Nat),
          ⟨true⟩) :=
  no_size_ceiling (fun _ : Unit => List.replicate (2 ^ 26 + 1) 41) () 9
    ⟨false⟩ () rfl

end Noria
